import Mathlib

/-!
Verification of the ministark proving pipeline against its design document.

The development shallowly embeds the code under `src/`:

* `src/mini-stark/src/prover.rs` — `ProofOptions::new`, the `Prover` trait and
  its `generate_proof` pipeline (namespace `Ministark.Mini`);
* `src/src/prover.rs` — the later `Provable::generate_proof` pipeline and its
  `ProvingError` type (namespace `Ministark.Ms`);
* `src/brainfuck/src/memory_table.rs` — `MemoryTable`: `derive_matrix`, `pad`,
  `len` and the boundary-constraint lists (namespace `Ministark.BF`).

Collaborators whose code is not part of the sources (field/NTT kernel, Merkle
trees, FRI internals, the hash inside the Fiat-Shamir channel) are abstracted
as parameters: they appear as fields of the prover structures or as oracle
functions mapping the list of already-absorbed channel events to the squeezed
values, exactly the dependency the channel establishes.  Every channel
interaction performed by `generate_proof` is recorded as an `Event`, so that
ordering properties of the transcript become properties of the event list.
-/

namespace Ministark

/-! ### Shared data model

A `Matrix` is an ordered sequence of columns (design §3); rows are implicit.
-/

abbrev Matrix (F : Type) := List (List F)

/-- Modelled from the spec: polynomial evaluation (`Matrix::evaluate_at` /
"open at z", §4.5) is not under `src/`; a column is a dense low-to-high
coefficient vector and evaluation is the usual Horner scheme. -/
def evalPoly {F : Type} [CommRing F] (coeffs : List F) (x : F) : F :=
  coeffs.foldr (fun c acc => c + x * acc) 0

/-- One interaction of `generate_proof` with the Fiat-Shamir channel.
Constructors mirror the `ProverChannel` methods called in the two provers. -/
inductive Event (F : Type) where
  | commitBaseTrace (root : Nat)
  | squeezeChallenges (n : Nat)
  | commitExtensionTrace (root : Nat)
  | squeezeCompositionCoeffs
  | commitCompositionTrace (root : Nat)
  | squeezeOodPoint
  | sendOodTraceStates (evals evalsNext : List F)
  | sendOodConstraintEvals (evals : List F)
  | sendExecutionOodEvals (evals : List F)
  | sendCompositionOodEvals (evals : List F)
  | squeezeDeepCoeffs
  | friCommitLayers
  | grindFriCommitments
  | squeezeQueryPositions
  | buildProof
deriving DecidableEq

/-- Payload-free transcript states, for stating ordering properties. -/
inductive EKind where
  | kCommitBase
  | kSqueezeChallenges
  | kCommitExtension
  | kSqueezeCompCoeffs
  | kCommitComposition
  | kSqueezeOod
  | kSendOodTrace
  | kSendOodConstraint
  | kSqueezeDeep
  | kFriCommit
  | kGrind
  | kSqueezeQueries
  | kBuildProof
deriving DecidableEq

def Event.kind {F : Type} : Event F → EKind
  | .commitBaseTrace _ => .kCommitBase
  | .squeezeChallenges _ => .kSqueezeChallenges
  | .commitExtensionTrace _ => .kCommitExtension
  | .squeezeCompositionCoeffs => .kSqueezeCompCoeffs
  | .commitCompositionTrace _ => .kCommitComposition
  | .squeezeOodPoint => .kSqueezeOod
  | .sendOodTraceStates _ _ => .kSendOodTrace
  | .sendOodConstraintEvals _ => .kSendOodConstraint
  | .sendExecutionOodEvals _ => .kSendOodTrace
  | .sendCompositionOodEvals _ => .kSendOodConstraint
  | .squeezeDeepCoeffs => .kSqueezeDeep
  | .friCommitLayers => .kFriCommit
  | .grindFriCommitments => .kGrind
  | .squeezeQueryPositions => .kSqueezeQueries
  | .buildProof => .kBuildProof

/-- `ProvingError` from both prover files: a single variant with no payload. -/
inductive ProvingError where
  | Fail
deriving DecidableEq

/-- The fatal `assert!`/`assert_eq!` failures that can abort `generate_proof`. -/
inductive PanicKind where
  | ceBlowupAssert
  | baseColumnCountAssert
  | extensionColumnCountAssert
deriving DecidableEq

/-- Result of running a prover pipeline: a proof, a returned `ProvingError`,
or an aborted run (Rust panic). -/
inductive Outcome (π : Type) where
  | ok (p : π)
  | err (e : ProvingError)
  | panicked (k : PanicKind)
deriving DecidableEq

/-! ### `ProofOptions::new` (src/mini-stark/src/prover.rs, lines 36-53) -/

structure ProofOptions where
  num_queries : Nat
  blowup_factor : Nat
  grinding_factor : Nat
deriving DecidableEq

/-- Modelled from the spec: `u8::is_power_of_two` (Rust standard library) is
true exactly on the eight u8 powers of two `2^0 .. 2^7`. -/
def u8IsPowerOfTwo (n : Nat) : Bool :=
  (List.range 8).any (fun k => n == 2 ^ k)

/-- `ProofOptions::new`: the sequence of `assert!`s at lines 43-47, collapsed
into one test; `none` models the panic when any assertion fails.  The
`grinding_factor` argument is never inspected. -/
def ProofOptions.new? (num_queries blowup_factor grinding_factor : Nat) :
    Option ProofOptions :=
  if 1 ≤ num_queries ∧ num_queries ≤ 128 ∧ u8IsPowerOfTwo blowup_factor = true ∧
      2 ≤ blowup_factor ∧ blowup_factor ≤ 64 then
    some ⟨num_queries, blowup_factor, grinding_factor⟩
  else
    none

/-! ### The `Prover` pipeline (src/mini-stark/src/prover.rs, lines 85-232)

Namespace `Mini`.  The prover's collaborators (`Air`, `Trace`,
interpolation/LDE kernel, Merkle commitment, constraint composer, DEEP
composer, FRI prover, query extraction) are abstract functions bundled in
`Mini.Prover`; the Fiat-Shamir squeezes are abstract functions of the events
absorbed so far, bundled in `Mini.Oracle`. -/

namespace Mini

structure Prover (F : Type) where
  /-- `Air::ce_blowup_factor()` -/
  ceBlowupFactor : Nat
  /-- `Air::lde_blowup_factor()` -/
  ldeBlowupFactor : Nat
  /-- `Air::num_challenges()` -/
  numChallenges : Nat
  /-- `air.trace_domain().group_gen` — the trace-domain generator g -/
  traceDomainGen : F
  /-- `trace.base_columns()` -/
  baseColumns : Matrix F
  /-- `trace.build_extension_columns(&challenges)` -/
  buildExtensionColumns : List F → Option (Matrix F)
  /-- `Matrix::interpolate_columns(trace_domain)` -/
  interpolateColumns : Matrix F → Matrix F
  /-- `Matrix::evaluate(lde_domain)` -/
  evaluateLde : Matrix F → Matrix F
  /-- `Matrix::commit_to_rows()` followed by `.root()`; digests are abstract -/
  commitRows : Matrix F → Nat
  /-- `Constraint::into_quadratic_constraints(challenges, …, &mut execution_trace_lde)`:
  returns the (possibly mutated) execution-trace LDE; the constraint list it
  also produces is folded into `composerBuild` -/
  intoQuadraticConstraints : List F → Matrix F → Matrix F
  /-- `ConstraintComposer::new(…).build_commitment(challenges, execution_lde)`,
  returning `(composition_trace_lde, composition_trace_polys, root)` -/
  composerBuild : List (F × F) → List F → Matrix F → Matrix F × Matrix F × Nat
  /-- `DeepPolyComposer` pipeline collapsed: deep coefficients, z, execution
  polys, their ood evals (at z and z·g), composition polys and their ood
  evals to the DEEP composition polynomial -/
  deepCompose : List F → F → Matrix F → List F → List F → Matrix F → List F → List F
  /-- `DensePolynomial::evaluate(lde_domain)` of the DEEP polynomial -/
  evaluateLdePoly : List F → List F
  /-- `FriProver::build_layers` + `into_proof(&query_positions)`; the proof
  object is abstract -/
  friProofOf : List F → List Nat → Nat
  /-- `Queries::new(execution_lde, composition_lde, trees…, positions)` -/
  queriesOf : Matrix F → Matrix F → List Nat → Nat

/-- Fiat-Shamir squeezes: deterministic functions of the absorbed events. -/
structure Oracle (F : Type) where
  challenges : List (Event F) → Nat → List F
  compositionCoeffs : List (Event F) → List (F × F)
  oodPoint : List (Event F) → F
  deepCoeffs : List (Event F) → List F
  queryPositions : List (Event F) → List Nat

/-- The `Proof` struct with abstract payloads for the parts whose code is not
under `src/` (FRI proof, queries). -/
structure Proof (F : Type) where
  baseRoot : Nat
  extensionRoot : Option Nat
  compositionRoot : Nat
  friProof : Nat
  queries : Nat
deriving DecidableEq

variable {F : Type} [CommRing F]

/-- `build_trace_commitment` (lines 97-111): interpolate on the trace domain,
evaluate on the LDE domain, Merkle-commit the rows; returns
`(lde, polys, root)`. -/
def buildTraceCommitment (P : Prover F) (trace : Matrix F) :
    Matrix F × Matrix F × Nat :=
  let tracePolys := P.interpolateColumns trace
  let traceLde := P.evaluateLde tracePolys
  (traceLde, tracePolys, P.commitRows traceLde)

def base (P : Prover F) : Matrix F × Matrix F × Nat :=
  buildTraceCommitment P P.baseColumns

def ev1 (P : Prover F) : List (Event F) :=
  [.commitBaseTrace (base P).2.2]

def challenges (P : Prover F) (O : Oracle F) : List F :=
  O.challenges (ev1 P) P.numChallenges

def ev2 (P : Prover F) : List (Event F) :=
  ev1 P ++ [.squeezeChallenges P.numChallenges]

def extensionTrace (P : Prover F) (O : Oracle F) : Option (Matrix F) :=
  P.buildExtensionColumns (challenges P O)

def extBuild (P : Prover F) (O : Oracle F) :
    Option (Matrix F × Matrix F × Nat) :=
  (extensionTrace P O).map (buildTraceCommitment P)

def ev3 (P : Prover F) (O : Oracle F) : List (Event F) :=
  ev2 P ++ ((extBuild P O).elim [] (fun t => [.commitExtensionTrace t.2.2]))

def executionLde (P : Prover F) (O : Oracle F) : Matrix F :=
  (base P).1 ++ ((extBuild P O).elim [] (fun t => t.1))

def executionPolys (P : Prover F) (O : Oracle F) : Matrix F :=
  (base P).2.1 ++ ((extBuild P O).elim [] (fun t => t.2.1))

def executionLdeQ (P : Prover F) (O : Oracle F) : Matrix F :=
  P.intoQuadraticConstraints (challenges P O) (executionLde P O)

def compCoeffs (P : Prover F) (O : Oracle F) : List (F × F) :=
  O.compositionCoeffs (ev3 P O)

def ev4 (P : Prover F) (O : Oracle F) : List (Event F) :=
  ev3 P O ++ [.squeezeCompositionCoeffs]

def composer (P : Prover F) (O : Oracle F) : Matrix F × Matrix F × Nat :=
  P.composerBuild (compCoeffs P O) (challenges P O) (executionLdeQ P O)

def ev5 (P : Prover F) (O : Oracle F) : List (Event F) :=
  ev4 P O ++ [.commitCompositionTrace (composer P O).2.2]

def z (P : Prover F) (O : Oracle F) : F :=
  O.oodPoint (ev5 P O)

def ev6 (P : Prover F) (O : Oracle F) : List (Event F) :=
  ev5 P O ++ [.squeezeOodPoint]

def oodEvals (P : Prover F) (O : Oracle F) : List F :=
  (executionPolys P O).map (fun c => evalPoly c (z P O))

def oodEvalsNext (P : Prover F) (O : Oracle F) : List F :=
  (executionPolys P O).map (fun c => evalPoly c (z P O * P.traceDomainGen))

def ev7 (P : Prover F) (O : Oracle F) : List (Event F) :=
  ev6 P O ++ [.sendOodTraceStates (oodEvals P O) (oodEvalsNext P O)]

def compPolys (P : Prover F) (O : Oracle F) : Matrix F :=
  (composer P O).2.1

def oodCompEvals (P : Prover F) (O : Oracle F) : List F :=
  (compPolys P O).map
    (fun c => evalPoly c (z P O ^ (executionPolys P O).length))

def ev8 (P : Prover F) (O : Oracle F) : List (Event F) :=
  ev7 P O ++ [.sendOodConstraintEvals (oodCompEvals P O)]

def deepCoeffs (P : Prover F) (O : Oracle F) : List F :=
  O.deepCoeffs (ev8 P O)

def ev9 (P : Prover F) (O : Oracle F) : List (Event F) :=
  ev8 P O ++ [.squeezeDeepCoeffs]

def deepPoly (P : Prover F) (O : Oracle F) : List F :=
  P.deepCompose (deepCoeffs P O) (z P O) (executionPolys P O) (oodEvals P O)
    (oodEvalsNext P O) (compPolys P O) (oodCompEvals P O)

def deepLde (P : Prover F) (O : Oracle F) : List F :=
  P.evaluateLdePoly (deepPoly P O)

def ev10 (P : Prover F) (O : Oracle F) : List (Event F) :=
  ev9 P O ++ [.friCommitLayers]

def ev11 (P : Prover F) (O : Oracle F) : List (Event F) :=
  ev10 P O ++ [.grindFriCommitments]

def queryPositions (P : Prover F) (O : Oracle F) : List Nat :=
  O.queryPositions (ev11 P O)

def ev12 (P : Prover F) (O : Oracle F) : List (Event F) :=
  ev11 P O ++ [.squeezeQueryPositions]

def proofVal (P : Prover F) (O : Oracle F) : Proof F :=
  { baseRoot := (base P).2.2
    extensionRoot := (extBuild P O).map (fun t => t.2.2)
    compositionRoot := (composer P O).2.2
    friProof := P.friProofOf (deepLde P O) (queryPositions P O)
    queries := P.queriesOf (executionLdeQ P O) (composer P O).1 (queryPositions P O) }

def evFinal (P : Prover F) (O : Oracle F) : List (Event F) :=
  ev12 P O ++ [.buildProof]

/-- `generate_proof` (lines 113-231).  The only fatal check of this version is
the `assert!(ce_blowup_factor <= lde_blowup_factor)` block at lines 122-131;
all later steps are infallible given total collaborators. -/
def generateProof (P : Prover F) (O : Oracle F) :
    List (Event F) × Outcome (Proof F) :=
  if P.ceBlowupFactor ≤ P.ldeBlowupFactor then
    (evFinal P O, .ok (proofVal P O))
  else
    ([], .panicked .ceBlowupAssert)

end Mini

/-! ### Splitting the composition polynomial (src/src/prover.rs, lines 87-97) -/

/-- `slice::chunks(m)` with an explicit fuel bound (`fuel ≥ l.length` makes the
recursion structural); splits a list into consecutive chunks of size `m`, the
last chunk possibly shorter.  Rust panics on `m = 0`; that case returns `[]`
here and is excluded by every theorem using it. -/
def chunksAux {F : Type} (m : Nat) : Nat → List F → List (List F)
  | _, [] => []
  | 0, _ :: _ => []
  | fuel + 1, a :: t =>
      if m = 0 then []
      else (a :: t).take m :: chunksAux m fuel ((a :: t).drop m)

def chunks {F : Type} (m : Nat) (l : List F) : List (List F) :=
  chunksAux m l.length l

/-- Modelled from the spec: `Matrix::from_rows` is not under `src/`.  Per the
design (§3 a matrix is an ordered sequence of columns; §4.4 step 4 assembles
the chunked coefficients "as a `composition_trace_polys` matrix with
ce_blowup columns"), it turns row-major data into the column sequence, i.e.
column `j` collects entry `j` of every row. -/
def fromRows {F : Type} [CommRing F] (rows : List (List F)) : Matrix F :=
  match rows with
  | [] => []
  | r :: _ => (List.range r.length).map (fun j => rows.map (fun row => row.getD j 0))

/-! ### The `Provable` pipeline (src/src/prover.rs, lines 28-142)

Namespace `Ms`.  Same modelling conventions as `Mini`.  The base and extension
fields (`Fp ⊆ Fq`) are collapsed into the single field `F`; the collapsed
distinction plays no role in the claims settled against this pipeline. -/

namespace Ms

structure Prover (F : Type) where
  /-- `AirConfig::NUM_BASE_COLUMNS` -/
  NUM_BASE_COLUMNS : Nat
  /-- `AirConfig::NUM_EXTENSION_COLUMNS` -/
  NUM_EXTENSION_COLUMNS : Nat
  /-- number of challenges drawn by `air.gen_challenges` -/
  numChallenges : Nat
  /-- `witness.base_columns()` -/
  baseColumns : Matrix F
  /-- `witness.build_extension_columns(&challenges)` -/
  buildExtensionColumns : List F → Option (Matrix F)
  /-- `air.gen_hints(&challenges)` -/
  genHints : List F → List F
  /-- `Matrix::interpolate(trace_xs)` -/
  interpolate : Matrix F → Matrix F
  /-- `Matrix::evaluate(lde_xs)` -/
  evaluateLde : Matrix F → Matrix F
  /-- `Matrix::commit_to_rows::<Sha256>()` root; digests abstract -/
  commitRows : Matrix F → Nat
  /-- `AirConfig::eval_constraint(composition_constraint, challenges, hints,
  coeffs, blowup, x_lde, base_lde, ext_lde)`; the constraint expression, the
  blowup and `x_lde` are folded into the function -/
  evalConstraint : List F → List F → List (F × F) → Matrix F → Option (Matrix F) → List F
  /-- `composition_evals.into_polynomials(lde_domain)` followed by
  `GpuVec::try_from(...).unwrap()`: the dense coefficient vector -/
  intoPolynomials : List F → List F
  /-- `air.ce_blowup_factor()` -/
  ceBlowupFactor : Nat
  /-- `DeepPolyComposer::new(air, z, base_polys, ext_polys, comp_polys)` +
  `get_ood_evals()` returning `(execution_trace_oods, composition_trace_oods)` -/
  getOodEvals : F → Matrix F → Option (Matrix F) → Matrix F → List F × List F
  /-- `deep_poly_composer.into_deep_poly(deep_coeffs)` (composer state passed
  explicitly) -/
  intoDeepPoly : List F → F → Matrix F → Option (Matrix F) → Matrix F → List F
  /-- `deep_composition_poly.into_evaluations(lde_xs)` -/
  intoEvaluations : List F → List F
  /-- `FriProver::build_layers` + `into_proof(&query_positions)` -/
  friProofOf : List F → List Nat → Nat
  /-- `Queries::new(base_lde, ext_lde, comp_lde, trees…, positions)` -/
  queriesOf : Matrix F → Option (Matrix F) → Matrix F → List Nat → Nat

structure Oracle (F : Type) where
  challenges : List (Event F) → List F
  compositionCoeffs : List (Event F) → List (F × F)
  oodPoint : List (Event F) → F
  deepCoeffs : List (Event F) → List F
  queryPositions : List (Event F) → List Nat

structure Proof (F : Type) where
  baseRoot : Nat
  extensionRoot : Option Nat
  compositionRoot : Nat
  friProof : Nat
  queries : Nat
deriving DecidableEq

variable {F : Type} [CommRing F]

def basePolys (P : Prover F) : Matrix F :=
  P.interpolate P.baseColumns

def baseLde (P : Prover F) : Matrix F :=
  P.evaluateLde (basePolys P)

def baseRoot (P : Prover F) : Nat :=
  P.commitRows (baseLde P)

def ev1 (P : Prover F) : List (Event F) :=
  [.commitBaseTrace (baseRoot P)]

def challenges (P : Prover F) (O : Oracle F) : List F :=
  O.challenges (ev1 P)

def hints (P : Prover F) (O : Oracle F) : List F :=
  P.genHints (challenges P O)

def ev2 (P : Prover F) : List (Event F) :=
  ev1 P ++ [.squeezeChallenges P.numChallenges]

def extensionTrace (P : Prover F) (O : Oracle F) : Option (Matrix F) :=
  P.buildExtensionColumns (challenges P O)

/-- `extension_trace.as_ref().map_or(0, Matrix::num_cols)` -/
def numExtCols (P : Prover F) (O : Oracle F) : Nat :=
  (extensionTrace P O).elim 0 List.length

def extensionPolys (P : Prover F) (O : Oracle F) : Option (Matrix F) :=
  (extensionTrace P O).map P.interpolate

def extensionLde (P : Prover F) (O : Oracle F) : Option (Matrix F) :=
  (extensionPolys P O).map P.evaluateLde

def extensionRoot? (P : Prover F) (O : Oracle F) : Option Nat :=
  (extensionLde P O).map P.commitRows

def ev3 (P : Prover F) (O : Oracle F) : List (Event F) :=
  ev2 P ++ ((extensionRoot? P O).elim [] (fun r => [.commitExtensionTrace r]))

def compCoeffs (P : Prover F) (O : Oracle F) : List (F × F) :=
  O.compositionCoeffs (ev3 P O)

def ev4 (P : Prover F) (O : Oracle F) : List (Event F) :=
  ev3 P O ++ [.squeezeCompositionCoeffs]

def compositionEvals (P : Prover F) (O : Oracle F) : List F :=
  P.evalConstraint (challenges P O) (hints P O) (compCoeffs P O) (baseLde P)
    (extensionLde P O)

def compositionPolyCoeffs (P : Prover F) (O : Oracle F) : List F :=
  P.intoPolynomials (compositionEvals P O)

/-- Lines 89-96: `composition_poly.chunks(ce_blowup)` assembled by
`Matrix::from_rows`. -/
def compositionTracePolys (P : Prover F) (O : Oracle F) : Matrix F :=
  fromRows (chunks P.ceBlowupFactor (compositionPolyCoeffs P O))

def compositionTraceLde (P : Prover F) (O : Oracle F) : Matrix F :=
  P.evaluateLde (compositionTracePolys P O)

def compositionRoot (P : Prover F) (O : Oracle F) : Nat :=
  P.commitRows (compositionTraceLde P O)

def ev5 (P : Prover F) (O : Oracle F) : List (Event F) :=
  ev4 P O ++ [.commitCompositionTrace (compositionRoot P O)]

def z (P : Prover F) (O : Oracle F) : F :=
  O.oodPoint (ev5 P O)

def ev6 (P : Prover F) (O : Oracle F) : List (Event F) :=
  ev5 P O ++ [.squeezeOodPoint]

def oodPair (P : Prover F) (O : Oracle F) : List F × List F :=
  P.getOodEvals (z P O) (basePolys P) (extensionPolys P O) (compositionTracePolys P O)

def ev7 (P : Prover F) (O : Oracle F) : List (Event F) :=
  ev6 P O ++ [.sendExecutionOodEvals (oodPair P O).1]

def ev8 (P : Prover F) (O : Oracle F) : List (Event F) :=
  ev7 P O ++ [.sendCompositionOodEvals (oodPair P O).2]

def deepCoeffs (P : Prover F) (O : Oracle F) : List F :=
  O.deepCoeffs (ev8 P O)

def ev9 (P : Prover F) (O : Oracle F) : List (Event F) :=
  ev8 P O ++ [.squeezeDeepCoeffs]

def deepPoly (P : Prover F) (O : Oracle F) : List F :=
  P.intoDeepPoly (deepCoeffs P O) (z P O) (basePolys P) (extensionPolys P O)
    (compositionTracePolys P O)

def deepLde (P : Prover F) (O : Oracle F) : List F :=
  P.intoEvaluations (deepPoly P O)

def ev10 (P : Prover F) (O : Oracle F) : List (Event F) :=
  ev9 P O ++ [.friCommitLayers]

def ev11 (P : Prover F) (O : Oracle F) : List (Event F) :=
  ev10 P O ++ [.grindFriCommitments]

def queryPositions (P : Prover F) (O : Oracle F) : List Nat :=
  O.queryPositions (ev11 P O)

def ev12 (P : Prover F) (O : Oracle F) : List (Event F) :=
  ev11 P O ++ [.squeezeQueryPositions]

def proofVal (P : Prover F) (O : Oracle F) : Proof F :=
  { baseRoot := baseRoot P
    extensionRoot := extensionRoot? P O
    compositionRoot := compositionRoot P O
    friProof := P.friProofOf (deepLde P O) (queryPositions P O)
    queries := P.queriesOf (baseLde P) (extensionLde P O) (compositionTraceLde P O)
      (queryPositions P O) }

def evFinal (P : Prover F) (O : Oracle F) : List (Event F) :=
  ev12 P O ++ [.buildProof]

/-- `generate_proof` (lines 31-142).  The two fatal checks are
`assert_eq!(NUM_BASE_COLUMNS, base_trace.num_cols())` at line 45 (before any
channel absorption) and `assert_eq!(NUM_EXTENSION_COLUMNS, num_extension_cols)`
at line 57 (after the base commitment and challenge squeeze, before the
extension commitment).  No code path constructs `ProvingError::Fail`. -/
def generateProof (P : Prover F) (O : Oracle F) :
    List (Event F) × Outcome (Proof F) :=
  if P.NUM_BASE_COLUMNS = P.baseColumns.length then
    if P.NUM_EXTENSION_COLUMNS = numExtCols P O then
      (evFinal P O, .ok (proofVal P O))
    else
      (ev2 P, .panicked .extensionColumnCountAssert)
  else
    ([], .panicked .baseColumnCountAssert)

end Ms

/-! ### `MemoryTable` (src/brainfuck/src/memory_table.rs)

Namespace `BF`.  The element type `E` models the `PrimeFelt` field;
`bigint : E → ℕ` models `into_bigint()`, the canonical integer representative
used as the sort key. -/

namespace BF

/-- Modelled from the spec: the processor table's row layout is not under
`src/`; a processor row is abstracted to the four columns `derive_matrix`
reads (`CYCLE`, `MP`, `MEM_VAL`, `CURR_INSTR`). -/
structure PRow (E : Type) where
  cycle : E
  mp : E
  memVal : E
  currInstr : E
deriving DecidableEq

/-- A memory-table row `[E; BASE_WIDTH]` with `CYCLE = 0`, `MP = 1`,
`MEM_VAL = 2`, `DUMMY = 3`. -/
structure MRow (E : Type) where
  cycle : E
  mp : E
  memVal : E
  dummy : E
deriving DecidableEq

variable {E : Type} [CommRing E] [DecidableEq E]

/-- The dummy row inserted after `curr` by `derive_matrix` (lines 95-104). -/
def dummyRowAfter (curr : MRow E) : MRow E :=
  { cycle := curr.cycle + 1, mp := curr.mp, memVal := curr.memVal, dummy := 1 }

/-- The dummy-insertion loop of `derive_matrix` (lines 89-105):
`for i in 0..matrix.len() - 1 { … }` — the bound is evaluated once, so the
loop performs exactly `matrix.len() - 1` iterations even though insertions
grow the vector.  `fuel` is the number of remaining iterations and `i` the
current index. -/
def dummyLoopAux : Nat → Nat → List (MRow E) → List (MRow E)
  | 0, _, m => m
  | fuel + 1, i, m =>
      let curr := m.getD i ⟨0, 0, 0, 0⟩
      let next := m.getD (i + 1) ⟨0, 0, 0, 0⟩
      if curr.mp = next.mp ∧ curr.cycle + 1 ≠ next.cycle then
        dummyLoopAux fuel (i + 1) (m.insertIdx (i + 1) (dummyRowAfter curr))
      else
        dummyLoopAux fuel (i + 1) m

/-- `MemoryTable::derive_matrix` (lines 64-108): keep the processor rows with
nonzero `CURR_INSTR` as `[cycle, mp, mem_val, 0]`, stably sort by the integer
representative of `MP` (Rust's stable `sort_by_key` is modelled by the stable
`List.insertionSort`), then run the dummy-insertion loop.  When the filtered
matrix is empty, `matrix.len() - 1` underflows and the loop body indexes an
empty vector — a panic, modelled as `none`. -/
def derive_matrix (bigint : E → Nat) (processorMatrix : List (PRow E)) :
    Option (List (MRow E)) :=
  let matrix := (processorMatrix.filterMap (fun row =>
      if row.currInstr = 0 then none
      else some (MRow.mk row.cycle row.mp row.memVal 0))).insertionSort
      (fun a b => bigint a.mp ≤ bigint b.mp)
  if matrix.length = 0 then none
  else some (dummyLoopAux (matrix.length - 1) 0 matrix)

/-- The `MemoryTable` struct (lines 9-13). -/
structure MemoryTable (E : Type) where
  num_padded_rows : Nat
  num_randomizers : Nat
  matrix : List (MRow E)
deriving DecidableEq

/-- `Table::len` (lines 115-117): matrix length minus padded rows. -/
def MemoryTable.len (t : MemoryTable E) : Nat :=
  t.matrix.length - t.num_padded_rows

/-- The `while matrix.len() < n` body of `pad` (lines 119-130); `fuel` is the
number of rows still to append (`n - matrix.len()`, constant 1 per turn since
every iteration appends exactly one row).  `last().unwrap()` on an empty
matrix is a panic, modelled as `none`. -/
def padLoop : Nat → MemoryTable E → Option (MemoryTable E)
  | 0, t => some t
  | fuel + 1, t =>
      match t.matrix.getLast? with
      | none => none
      | some lastRow =>
          padLoop fuel
            { num_padded_rows := t.num_padded_rows + 1
              num_randomizers := t.num_randomizers
              matrix := t.matrix ++
                [{ cycle := lastRow.cycle + 1, mp := lastRow.mp,
                   memVal := lastRow.memVal, dummy := 1 }] }

/-- `Table::pad` (lines 119-130). -/
def MemoryTable.pad (t : MemoryTable E) (n : Nat) : Option (MemoryTable E) :=
  padLoop (n - t.matrix.length) t

/-- The relation between a row and the padding row appended after it: same
`MP` and `MEM_VAL`, `CYCLE` one larger, `DUMMY = 1`. -/
def padFollows (prev r : MRow E) : Prop :=
  r.dummy = 1 ∧ r.mp = prev.mp ∧ r.memVal = prev.memVal ∧ r.cycle = prev.cycle + 1

/-! `Multivariate` polynomials (the `algebra` crate is not under `src/`): a
multivariate polynomial over `E` is modelled extensionally as the function it
induces on variable assignments `ℕ → E`; ring operations are pointwise, which
matches polynomial arithmetic under evaluation. -/

abbrev Multivariate (E : Type) := (Nat → E) → E

/-- `Multivariate::variables(n)`: the first `n` coordinate projections. -/
def mvariables (E : Type) (n : Nat) : List (Multivariate E) :=
  (List.range n).map (fun i => fun v => v i)

/-- `Multivariate::constant(c)`. -/
def mvconstant (c : E) : Multivariate E :=
  fun _ => c

/-- `MemoryTable::extension_boundary_constraints` (lines 163-172): the
returned list holds the `CYCLE`, `MP` and `MEM_VAL` projections only; the
`variables[PERMUTATION] - one` entry is commented out in the source.  The
`challenges` argument is unused there. -/
def extension_boundary_constraints (_challenges : List E) :
    List (Multivariate E) :=
  let vars := mvariables E 5
  [vars.getD 0 (mvconstant 0),
   vars.getD 1 (mvconstant 0),
   vars.getD 2 (mvconstant 0)]

/-- The boundary constraint the design document requires: the extension
column `PERMUTATION` (index 4) minus one. -/
def permutationBoundaryConstraint : Multivariate E :=
  (mvariables E 5).getD 4 (mvconstant 0) - 1

end BF

/-! ### Concrete instances used by witnesses and counterexamples -/

/-- Whether, in a kind trace, the challenge squeeze happens strictly before
the extension-trace commitment.  The claimed transcript order
(`ExtensionCommitted` before `ChallengesDrawn`) requires this to be `false`
whenever both events occur. -/
def challengesBeforeExtension (ks : List EKind) : Bool :=
  match ks.findIdx? (fun k => k == EKind.kSqueezeChallenges),
      ks.findIdx? (fun k => k == EKind.kCommitExtension) with
  | some i, some j => i < j
  | _, _ => false

/-- A small concrete `Mini.Prover` over ℤ whose witness has an extension
trace. -/
def exMiniP : Mini.Prover Int :=
  { ceBlowupFactor := 1
    ldeBlowupFactor := 1
    numChallenges := 1
    traceDomainGen := 1
    baseColumns := [[1, 1]]
    buildExtensionColumns := fun _ => some [[2, 2]]
    interpolateColumns := fun m => m
    evaluateLde := fun m => m
    commitRows := fun m => m.length
    intoQuadraticConstraints := fun _ m => m
    composerBuild := fun _ _ lde => (lde, lde, 7)
    deepCompose := fun _ _ _ _ _ _ _ => [1]
    evaluateLdePoly := fun p => p
    friProofOf := fun _ _ => 0
    queriesOf := fun _ _ _ => 0 }

def exMiniO : Mini.Oracle Int :=
  { challenges := fun _ n => List.replicate n 1
    compositionCoeffs := fun _ => []
    oodPoint := fun _ => 2
    deepCoeffs := fun _ => []
    queryPositions := fun _ => [0] }

def exMsO : Ms.Oracle Int :=
  { challenges := fun _ => []
    compositionCoeffs := fun _ => []
    oodPoint := fun _ => 2
    deepCoeffs := fun _ => []
    queryPositions := fun _ => [0] }

/-- A concrete `Ms.Prover` over ℤ with matching column counts and no
extension trace; its constraint evaluations interpolate to four coefficients
and `ce_blowup = 2`. -/
def exMsP : Ms.Prover Int :=
  { NUM_BASE_COLUMNS := 1
    NUM_EXTENSION_COLUMNS := 0
    numChallenges := 0
    baseColumns := [[5]]
    buildExtensionColumns := fun _ => none
    genHints := fun _ => []
    interpolate := fun m => m
    evaluateLde := fun m => m
    commitRows := fun m => m.length
    evalConstraint := fun _ _ _ _ _ => [1, 2, 3, 4]
    intoPolynomials := fun l => l
    ceBlowupFactor := 2
    getOodEvals := fun _ _ _ _ => ([], [])
    intoDeepPoly := fun _ _ _ _ _ => [1]
    intoEvaluations := fun p => p
    friProofOf := fun _ _ => 0
    queriesOf := fun _ _ _ _ => 0 }

/-- `exMsP` with a wrong `NUM_BASE_COLUMNS` declaration. -/
def exMsPBadBase : Ms.Prover Int :=
  { exMsP with NUM_BASE_COLUMNS := 2 }

/-- `exMsP` with a wrong `NUM_EXTENSION_COLUMNS` declaration (the witness
builds no extension columns). -/
def exMsPBadExt : Ms.Prover Int :=
  { exMsP with NUM_EXTENSION_COLUMNS := 1 }

/-- A one-row concrete memory table over ℤ. -/
def exMemTable : BF.MemoryTable Int :=
  { num_padded_rows := 0
    num_randomizers := 0
    matrix := [{ cycle := 0, mp := 0, memVal := 0, dummy := 0 }] }

/-- A two-row concrete processor matrix over ℤ: both rows have nonzero
`CURR_INSTR`, listed in decreasing `MP` order so the sort is visible. -/
def exProcMatrix : List (BF.PRow Int) :=
  [{ cycle := 0, mp := 1, memVal := 5, currInstr := 1 },
   { cycle := 1, mp := 0, memVal := 7, currInstr := 2 }]

/-! ## Helper lemmas -/

theorem chunksAux_shape {F : Type} (m : Nat) (hm : 0 < m) :
    ∀ (fuel : Nat) (l : List F) (n : Nat), l.length ≤ fuel → l.length = n * m →
      (chunksAux m fuel l).length = n ∧ ∀ c ∈ chunksAux m fuel l, c.length = m := by
  intro fuel
  induction fuel with
  | zero =>
    intro l n hle hlen
    have hl : l = [] := List.eq_nil_of_length_eq_zero (Nat.le_zero.mp hle)
    subst hl
    have hn : n = 0 := by
      rcases Nat.mul_eq_zero.mp hlen.symm with h | h
      · exact h
      · exact absurd h hm.ne'
    subst hn
    simp [chunksAux]
  | succ fuel ih =>
    intro l n hle hlen
    cases l with
    | nil =>
      have hn : n = 0 := by
        rcases Nat.mul_eq_zero.mp hlen.symm with h | h
        · exact h
        · exact absurd h hm.ne'
      subst hn
      simp [chunksAux]
    | cons a t =>
      have hm' : m ≠ 0 := hm.ne'
      cases n with
      | zero => simp at hlen
      | succ n' =>
        have hlen' : (a :: t).length = n' * m + m := by
          rw [hlen, Nat.succ_mul]
        have hmle : m ≤ (a :: t).length := by omega
        have htake : ((a :: t).take m).length = m := by
          rw [List.length_take]
          exact Nat.min_eq_left hmle
        have hdrop : ((a :: t).drop m).length = n' * m := by
          rw [List.length_drop]
          omega
        have hdle : ((a :: t).drop m).length ≤ fuel := by
          rw [hdrop]
          have h1 : (a :: t).length ≤ fuel + 1 := hle
          omega
        obtain ⟨ihlen, ihmem⟩ := ih ((a :: t).drop m) n' hdle hdrop
        constructor
        · simp only [chunksAux, if_neg hm', List.length_cons]
          rw [ihlen]
        · intro c hc
          simp only [chunksAux, if_neg hm'] at hc
          rcases List.mem_cons.mp hc with rfl | hc
          · exact htake
          · exact ihmem c hc

theorem chunks_shape {F : Type} (m : Nat) (hm : 0 < m) (l : List F) (n : Nat)
    (hlen : l.length = n * m) :
    (chunks m l).length = n ∧ ∀ c ∈ chunks m l, c.length = m :=
  chunksAux_shape m hm l.length l n le_rfl hlen

theorem fromRows_shape {F : Type} [CommRing F] (rows : List (List F)) (m : Nat)
    (hne : rows ≠ []) (hrow : ∀ r ∈ rows, r.length = m) :
    (fromRows rows).length = m ∧ ∀ col ∈ fromRows rows, col.length = rows.length := by
  cases rows with
  | nil => exact absurd rfl hne
  | cons r rest =>
    constructor
    · simp [fromRows, hrow r (List.mem_cons_self r rest)]
    · intro col hcol
      simp only [fromRows, List.mem_map, List.mem_range] at hcol
      obtain ⟨j, _, rfl⟩ := hcol
      simp

theorem u8IsPowerOfTwo_iff (n : Nat) (h : n ≤ 255) :
    u8IsPowerOfTwo n = true ↔ ∃ k, n = 2 ^ k := by
  unfold u8IsPowerOfTwo
  simp only [List.any_eq_true, List.mem_range, beq_iff_eq]
  constructor
  · rintro ⟨k, _, hk⟩
    exact ⟨k, hk⟩
  · rintro ⟨k, rfl⟩
    refine ⟨k, ?_, rfl⟩
    by_contra hk8
    have h8 : 8 ≤ k := Nat.le_of_not_lt hk8
    have : (2 : Nat) ^ 8 ≤ 2 ^ k := Nat.pow_le_pow_right (by norm_num) h8
    omega

/-! ## Claims -/

/-- Claim C3 (corrected).  `ProofOptions::new` succeeds exactly when
`num_queries ∈ 1..=128` and `blowup_factor` is a power of two in `[2, 64]`;
the `grinding_factor` argument is accepted unchecked (the claimed
`grinding_factor ≤ 64` range is not enforced, see `c3_counterexample`). -/
theorem c3_proof_options_validation (nq bf gf : Nat) (hbf : bf ≤ 255) :
    (ProofOptions.new? nq bf gf).isSome = true ↔
      (1 ≤ nq ∧ nq ≤ 128 ∧ (∃ k, bf = 2 ^ k) ∧ 2 ≤ bf ∧ bf ≤ 64) := by
  unfold ProofOptions.new?
  split_ifs with h
  · simp only [Option.isSome_some, true_iff]
    exact ⟨h.1, h.2.1, (u8IsPowerOfTwo_iff bf hbf).mp h.2.2.1, h.2.2.2⟩
  · simp only [Option.isSome_none, Bool.false_eq_true, false_iff]
    intro hc
    exact h ⟨hc.1, hc.2.1, (u8IsPowerOfTwo_iff bf hbf).mpr hc.2.2.1, hc.2.2.2⟩

/-- Claim C3, counterexample to the claim as stated: `grinding_factor = 65`
is above the claimed range `0..=64`, yet `ProofOptions::new(1, 2, 65)`
succeeds — the function performs no check on `grinding_factor`. -/
theorem c3_counterexample :
    ProofOptions.new? 1 2 65 =
        some { num_queries := 1, blowup_factor := 2, grinding_factor := 65 } ∧
      ¬ (65 : Nat) ≤ 64 := by
  decide

/-- Claim C3, witness for `c3_proof_options_validation`. -/
theorem c3_witness : (ProofOptions.new? 32 4 16).isSome = true :=
  (c3_proof_options_validation 32 4 16 (by decide)).mpr
    ⟨by decide, by decide, ⟨2, by decide⟩, by decide, by decide⟩

/-- Claim C6 (confirmed).  `generate_proof` is deterministic: both pipelines
are pure functions of the prover data and the Fiat-Shamir oracle (which is
itself a function of the absorbed events only), so two runs on the same
inputs return identical results — in particular identical serialized
proofs. -/
theorem c6_determinism {F : Type} [CommRing F] (P : Mini.Prover F)
    (O : Mini.Oracle F) (P2 : Ms.Prover F) (O2 : Ms.Oracle F) :
    Mini.generateProof P O = Mini.generateProof P O ∧
      Ms.generateProof P2 O2 = Ms.generateProof P2 O2 :=
  ⟨rfl, rfl⟩

/-- Claim C7 (code bug).  The list returned by
`MemoryTable::extension_boundary_constraints` does not contain the
`variables[PERMUTATION] - 1` constraint — that line is commented out in the
source (lines 169-170, with a `TODO: why is this not included?`), while the
design document requires it for soundness.  The list holds exactly the three
base boundary constraints. -/
theorem c7_permutation_boundary_missing (challenges : List Int) :
    BF.permutationBoundaryConstraint (E := Int) ∉
        BF.extension_boundary_constraints (E := Int) challenges ∧
      (BF.extension_boundary_constraints (E := Int) challenges).length = 3 := by
  constructor
  · intro hmem
    have h0 : BF.permutationBoundaryConstraint (E := Int) (fun _ => 0) = -1 := by
      norm_num [BF.permutationBoundaryConstraint, BF.mvariables, List.range_succ]
    have h1 : ∀ f ∈ BF.extension_boundary_constraints (E := Int) challenges,
        f (fun _ => 0) = 0 := by
      intro f hf
      simp only [BF.extension_boundary_constraints, BF.mvariables, List.range_succ,
        List.mem_cons, List.not_mem_nil, or_false] at hf
      rcases hf with rfl | rfl | rfl <;> rfl
    have := h1 _ hmem
    rw [h0] at this
    norm_num at this
  · rfl

/-- Claim C5 (confirmed).  When the composition polynomial's coefficient
vector has length `n · ce_blowup` (its degree bound, §3) with `n` the trace
length, `generate_proof`'s chunk-and-assemble step produces a
`composition_trace_polys` matrix with exactly `ce_blowup` columns, each of
`n` coefficients — i.e. each segment polynomial has degree `< n`. -/
theorem c5_composition_split {F : Type} [CommRing F] (P : Ms.Prover F)
    (O : Ms.Oracle F) (n : Nat) (hn : 0 < n) (hm : 0 < P.ceBlowupFactor)
    (hlen : (Ms.compositionPolyCoeffs P O).length = n * P.ceBlowupFactor) :
    (Ms.compositionTracePolys P O).length = P.ceBlowupFactor ∧
      ∀ col ∈ Ms.compositionTracePolys P O, col.length = n := by
  obtain ⟨hclen, hcmem⟩ :=
    chunks_shape P.ceBlowupFactor hm (Ms.compositionPolyCoeffs P O) n hlen
  have hne : chunks P.ceBlowupFactor (Ms.compositionPolyCoeffs P O) ≠ [] := by
    intro hc
    rw [hc] at hclen
    simp at hclen
    omega
  obtain ⟨hflen, hfmem⟩ :=
    fromRows_shape (chunks P.ceBlowupFactor (Ms.compositionPolyCoeffs P O))
      P.ceBlowupFactor hne hcmem
  refine ⟨hflen, fun col hcol => ?_⟩
  rw [hfmem col hcol, hclen]

/-- Claim C5, witness for `c5_composition_split`: four composition
coefficients, `ce_blowup = 2`, trace length `n = 2`. -/
theorem c5_witness :
    (Ms.compositionTracePolys exMsP exMsO).length = exMsP.ceBlowupFactor ∧
      ∀ col ∈ Ms.compositionTracePolys exMsP exMsO, col.length = 2 :=
  c5_composition_split exMsP exMsO 2 (by decide) (by decide) (by decide)

/-- Claim C4 (corrected).  Every run of `generate_proof` either returns a
proof or aborts with a fatal assertion (a panic); no run returns the
`ProvingError` variant — `ProvingError::Fail` is never constructed and
carries no diagnostic payload.  See `c4_counterexample` for a failing run
surfaced as a panic rather than through the error variant. -/
theorem c4_outcome_shape {F : Type} [CommRing F] (P : Ms.Prover F)
    (O : Ms.Oracle F) (evs : List (Event F)) (out : Outcome (Ms.Proof F))
    (h : Ms.generateProof P O = (evs, out)) :
    ((∃ p, out = Outcome.ok p) ∨ (∃ k, out = Outcome.panicked k)) ∧
      ∀ e, out ≠ Outcome.err e := by
  unfold Ms.generateProof at h
  split_ifs at h with h1 h2 <;> injection h with hevs hout <;> subst hout <;>
    exact ⟨by first | exact Or.inl ⟨_, rfl⟩ | exact Or.inr ⟨_, rfl⟩,
      fun e he => by cases he⟩

/-- Claim C4, counterexample to the claim as stated: a run whose witness
builds no extension columns while the AIR declares one is a proving-pipeline
failure, and it is surfaced as a panic (`assert_eq!` at line 57), not through
the error variant. -/
theorem c4_counterexample :
    Ms.generateProof exMsPBadExt exMsO =
        ([Event.commitBaseTrace 1, Event.squeezeChallenges 0],
          Outcome.panicked PanicKind.extensionColumnCountAssert) ∧
      (Ms.generateProof exMsPBadExt exMsO).2 ≠ Outcome.err ProvingError.Fail := by
  decide

/-- Claim C4, witness for `c4_outcome_shape`. -/
theorem c4_witness :
    ((∃ p, (Ms.generateProof exMsP exMsO).2 = Outcome.ok p) ∨
        (∃ k, (Ms.generateProof exMsP exMsO).2 = Outcome.panicked k)) ∧
      ∀ e, (Ms.generateProof exMsP exMsO).2 ≠ Outcome.err e :=
  c4_outcome_shape exMsP exMsO (Ms.generateProof exMsP exMsO).1
    (Ms.generateProof exMsP exMsO).2 rfl

/-- Claim C8 (confirmed).  `generate_proof` reaches a proof only when the
witness's base-column count equals `NUM_BASE_COLUMNS` and the extension
columns built from the challenges match `NUM_EXTENSION_COLUMNS`; a base
mismatch aborts before anything is absorbed into the channel, and an
extension mismatch aborts right after the challenge squeeze — before the
extension commitment and before any proof is produced. -/
theorem c8_column_count_checks {F : Type} [CommRing F] (P : Ms.Prover F)
    (O : Ms.Oracle F) :
    (∀ evs p, Ms.generateProof P O = (evs, Outcome.ok p) →
        P.NUM_BASE_COLUMNS = P.baseColumns.length ∧
          P.NUM_EXTENSION_COLUMNS = Ms.numExtCols P O) ∧
      (P.NUM_BASE_COLUMNS ≠ P.baseColumns.length →
        Ms.generateProof P O = ([], Outcome.panicked PanicKind.baseColumnCountAssert)) ∧
      (P.NUM_BASE_COLUMNS = P.baseColumns.length →
        P.NUM_EXTENSION_COLUMNS ≠ Ms.numExtCols P O →
          Ms.generateProof P O =
            ([Event.commitBaseTrace (Ms.baseRoot P),
              Event.squeezeChallenges P.numChallenges],
              Outcome.panicked PanicKind.extensionColumnCountAssert)) := by
  refine ⟨?_, ?_, ?_⟩
  · intro evs p h
    unfold Ms.generateProof at h
    split_ifs at h with h1 h2
    · exact ⟨h1, h2⟩
    · injection h with _ hout
      cases hout
    · injection h with _ hout
      cases hout
  · intro h1
    unfold Ms.generateProof
    rw [if_neg h1]
  · intro h1 h2
    unfold Ms.generateProof
    rw [if_pos h1, if_neg h2]
    rfl

/-- Claim C8, witness for `c8_column_count_checks`: a declared base-column
count of 2 against a one-column witness aborts with no channel events. -/
theorem c8_witness :
    Ms.generateProof exMsPBadBase exMsO =
      ([], Outcome.panicked PanicKind.baseColumnCountAssert) :=
  (c8_column_count_checks exMsPBadBase exMsO).2.1 (by decide)

theorem chain'_insertIdx_mid {α : Type} (R : α → α → Prop) (d d0 : α) :
    ∀ (i : Nat) (l : List α), i + 1 < l.length → List.Chain' R l →
      R (l.getD i d0) d → R d (l.getD (i + 1) d0) →
      List.Chain' R (l.insertIdx (i + 1) d) := by
  intro i
  induction i with
  | zero =>
    intro l hlen hc h1 h2
    cases l with
    | nil => simp at hlen
    | cons a t =>
      cases t with
      | nil => simp at hlen
      | cons b t2 =>
        simp only [List.insertIdx_succ_cons, List.insertIdx_zero]
        simp only [List.getD_cons_zero] at h1
        simp only [List.getD_cons_succ, List.getD_cons_zero] at h2
        exact List.chain'_cons.mpr ⟨h1,
          List.chain'_cons.mpr ⟨h2, (List.chain'_cons.mp hc).2⟩⟩
  | succ i ih =>
    intro l hlen hc h1 h2
    cases l with
    | nil => simp at hlen
    | cons a t =>
      have htlen : i + 1 < t.length := by
        simp only [List.length_cons] at hlen
        omega
      simp only [List.insertIdx_succ_cons]
      simp only [List.getD_cons_succ] at h1 h2
      have hins := ih t htlen hc.tail h1 h2
      refine List.chain'_cons'.mpr ⟨?_, hins⟩
      intro y hy
      cases t with
      | nil => simp at htlen
      | cons b t2 =>
        simp only [List.insertIdx_succ_cons, List.head?_cons,
          Option.mem_def, Option.some.injEq] at hy
        subst hy
        exact (List.chain'_cons.mp hc).1

theorem dummyLoopAux_mem {E : Type} [CommRing E] [DecidableEq E] :
    ∀ (fuel i : Nat) (m : List (BF.MRow E)), fuel + i < m.length →
      ∀ r ∈ BF.dummyLoopAux fuel i m, r ∈ m ∨ r.dummy = 1 := by
  intro fuel
  induction fuel with
  | zero =>
    intro i m _ r hr
    exact Or.inl hr
  | succ fuel ih =>
    intro i m hlen r hr
    have hi1 : i + 1 ≤ m.length := by omega
    simp only [BF.dummyLoopAux] at hr
    split at hr
    · have hlen' : fuel + (i + 1) <
          (m.insertIdx (i + 1) (BF.dummyRowAfter (m.getD i ⟨0, 0, 0, 0⟩))).length := by
        rw [List.length_insertIdx (i + 1) m hi1]
        omega
      rcases ih (i + 1) _ hlen' r hr with hmem | hd
      · rcases (List.mem_insertIdx hi1).mp hmem with rfl | hmem'
        · exact Or.inr rfl
        · exact Or.inl hmem'
      · exact Or.inr hd
    · exact ih (i + 1) m (by omega) r hr

theorem dummyLoopAux_chain {E : Type} [CommRing E] [DecidableEq E]
    (bigint : E → Nat) :
    ∀ (fuel i : Nat) (m : List (BF.MRow E)), fuel + i < m.length →
      List.Chain' (fun a b => bigint a.mp ≤ bigint b.mp) m →
      List.Chain' (fun a b => bigint a.mp ≤ bigint b.mp)
        (BF.dummyLoopAux fuel i m) := by
  intro fuel
  induction fuel with
  | zero =>
    intro i m _ hc
    exact hc
  | succ fuel ih =>
    intro i m hlen hc
    have hi1 : i + 1 ≤ m.length := by omega
    simp only [BF.dummyLoopAux]
    split
    · next hcond =>
      apply ih
      · rw [List.length_insertIdx (i + 1) m hi1]
        omega
      · refine chain'_insertIdx_mid _ _ ⟨0, 0, 0, 0⟩ i m (by omega) hc ?_ ?_
        · exact le_rfl
        · exact le_of_eq (congrArg bigint hcond.1)
    · exact ih (i + 1) m (by omega) hc

theorem padLoop_spec {E : Type} [CommRing E] :
    ∀ (fuel : Nat) (t : BF.MemoryTable E) (h : t.matrix ≠ []),
      ∃ t2 ap, BF.padLoop fuel t = some t2 ∧
        t2.matrix = t.matrix ++ ap ∧
        t2.matrix.length = t.matrix.length + fuel ∧
        t2.num_padded_rows = t.num_padded_rows + fuel ∧
        t2.num_randomizers = t.num_randomizers ∧
        List.Chain BF.padFollows (t.matrix.getLast h) ap := by
  intro fuel
  induction fuel with
  | zero =>
    intro t h
    exact ⟨t, [], rfl, by simp, rfl, rfl, rfl, List.Chain.nil⟩
  | succ fuel ih =>
    intro t h
    have hlast : t.matrix.getLast? = some (t.matrix.getLast h) :=
      List.getLast?_eq_getLast t.matrix h
    set nr : BF.MRow E :=
      { cycle := (t.matrix.getLast h).cycle + 1, mp := (t.matrix.getLast h).mp,
        memVal := (t.matrix.getLast h).memVal, dummy := 1 } with hnr
    set t1 : BF.MemoryTable E :=
      { num_padded_rows := t.num_padded_rows + 1
        num_randomizers := t.num_randomizers
        matrix := t.matrix ++ [nr] } with ht1
    have h1 : t1.matrix ≠ [] := by simp [ht1]
    obtain ⟨t2, ap, hrun, hmat, hlen, hpad, hrand, hchain⟩ := ih t1 h1
    have hm1 : t1.matrix = t.matrix ++ [nr] := rfl
    have hp1 : t1.num_padded_rows = t.num_padded_rows + 1 := rfl
    have hr1 : t1.num_randomizers = t.num_randomizers := rfl
    refine ⟨t2, nr :: ap, ?_, ?_, ?_, ?_, ?_, ?_⟩
    · show BF.padLoop (fuel + 1) t = some t2
      simp only [BF.padLoop, hlast]
      exact hrun
    · rw [hmat, hm1, List.append_assoc]
      rfl
    · rw [hlen, hm1]
      simp only [List.length_append, List.length_cons, List.length_nil]
      omega
    · rw [hpad, hp1]
      omega
    · rw [hrand, hr1]
    · refine List.Chain.cons ⟨rfl, rfl, rfl, rfl⟩ ?_
      have hgl : t1.matrix.getLast h1 = nr := by
        simp [ht1]
      rwa [hgl] at hchain

/-- Claim C1 (confirmed).  In every successful run of `generate_proof`, the
channel receives: the opening of every execution-trace column polynomial
(base then extension, concatenated) at the out-of-domain point `z` and at
`z·g` with `g` the trace-domain generator, then the opening of every
composition-trace segment polynomial at `z^m` with `m` the number of
execution-trace columns — and the DEEP coefficients are squeezed only after
both messages. -/
theorem c1_deep_openings {F : Type} [CommRing F] (P : Mini.Prover F)
    (O : Mini.Oracle F) (pf : Mini.Proof F)
    (h : (Mini.generateProof P O).2 = Outcome.ok pf) :
    (∃ l1 l2, (Mini.generateProof P O).1 =
        l1 ++ Event.sendOodTraceStates
            ((Mini.executionPolys P O).map (fun c => evalPoly c (Mini.z P O)))
            ((Mini.executionPolys P O).map
              (fun c => evalPoly c (Mini.z P O * P.traceDomainGen)))
          :: Event.sendOodConstraintEvals
            ((Mini.compPolys P O).map
              (fun c => evalPoly c (Mini.z P O ^ (Mini.executionPolys P O).length)))
          :: Event.squeezeDeepCoeffs :: l2) ∧
      Mini.executionPolys P O =
        P.interpolateColumns P.baseColumns ++
          (match Mini.extensionTrace P O with
            | some ext => P.interpolateColumns ext
            | none => []) := by
  constructor
  · unfold Mini.generateProof at h ⊢
    split_ifs at h ⊢ with hce
    · refine ⟨Mini.ev6 P O,
        [.friCommitLayers, .grindFriCommitments, .squeezeQueryPositions, .buildProof], ?_⟩
      show Mini.evFinal P O = _
      simp [Mini.evFinal, Mini.ev12, Mini.ev11, Mini.ev10, Mini.ev9, Mini.ev8,
        Mini.ev7, Mini.oodEvals, Mini.oodEvalsNext, Mini.oodCompEvals]
  · cases hext : Mini.extensionTrace P O <;>
      simp [Mini.executionPolys, Mini.extBuild, hext, Mini.base,
        Mini.buildTraceCommitment]

/-- Claim C1, witness for `c1_deep_openings` at the concrete instance. -/
theorem c1_witness :
    (∃ l1 l2, (Mini.generateProof exMiniP exMiniO).1 =
        l1 ++ Event.sendOodTraceStates
            ((Mini.executionPolys exMiniP exMiniO).map
              (fun c => evalPoly c (Mini.z exMiniP exMiniO)))
            ((Mini.executionPolys exMiniP exMiniO).map
              (fun c => evalPoly c (Mini.z exMiniP exMiniO * exMiniP.traceDomainGen)))
          :: Event.sendOodConstraintEvals
            ((Mini.compPolys exMiniP exMiniO).map
              (fun c => evalPoly c
                (Mini.z exMiniP exMiniO ^ (Mini.executionPolys exMiniP exMiniO).length)))
          :: Event.squeezeDeepCoeffs :: l2) ∧
      Mini.executionPolys exMiniP exMiniO =
        exMiniP.interpolateColumns exMiniP.baseColumns ++
          (match Mini.extensionTrace exMiniP exMiniO with
            | some ext => exMiniP.interpolateColumns ext
            | none => []) :=
  c1_deep_openings exMiniP exMiniO (Mini.proofVal exMiniP exMiniO) rfl

/-- Claim C2 (corrected).  A successful run's transcript is
`BaseCommitted → ChallengesDrawn → (ExtensionCommitted)? →
CompositionCoeffsDrawn → CompositionCommitted → OodDrawn → OodEvalsSent →
DeepCoeffsDrawn → FriCommitted → Grinded → QueriesDrawn → ProofBuilt`: the
optional extension-trace commitment is absorbed after the challenges are
drawn (the extension columns are functions of those challenges), not before
as the claim states — see `c2_counterexample`. -/
theorem c2_transcript_order {F : Type} [CommRing F] (P : Mini.Prover F)
    (O : Mini.Oracle F) (pf : Mini.Proof F)
    (h : (Mini.generateProof P O).2 = Outcome.ok pf) :
    ((Mini.extensionTrace P O).isSome = true ∧
        ((Mini.generateProof P O).1).map Event.kind =
          [.kCommitBase, .kSqueezeChallenges, .kCommitExtension,
           .kSqueezeCompCoeffs, .kCommitComposition, .kSqueezeOod,
           .kSendOodTrace, .kSendOodConstraint, .kSqueezeDeep, .kFriCommit,
           .kGrind, .kSqueezeQueries, .kBuildProof]) ∨
      (Mini.extensionTrace P O = none ∧
        ((Mini.generateProof P O).1).map Event.kind =
          [.kCommitBase, .kSqueezeChallenges, .kSqueezeCompCoeffs,
           .kCommitComposition, .kSqueezeOod, .kSendOodTrace,
           .kSendOodConstraint, .kSqueezeDeep, .kFriCommit, .kGrind,
           .kSqueezeQueries, .kBuildProof]) := by
  unfold Mini.generateProof at h ⊢
  split_ifs at h ⊢ with hce
  · cases hext : Mini.extensionTrace P O with
    | none =>
      right
      refine ⟨rfl, ?_⟩
      simp [Mini.evFinal, Mini.ev12, Mini.ev11, Mini.ev10, Mini.ev9, Mini.ev8,
        Mini.ev7, Mini.ev6, Mini.ev5, Mini.ev4, Mini.ev3, Mini.ev2, Mini.ev1,
        Mini.extBuild, hext, Event.kind]
    | some ext =>
      left
      refine ⟨by simp [hext], ?_⟩
      simp [Mini.evFinal, Mini.ev12, Mini.ev11, Mini.ev10, Mini.ev9, Mini.ev8,
        Mini.ev7, Mini.ev6, Mini.ev5, Mini.ev4, Mini.ev3, Mini.ev2, Mini.ev1,
        Mini.extBuild, hext, Event.kind]

/-- Claim C2, counterexample to the claim as stated: in a concrete run whose
witness has an extension trace, the challenge squeeze strictly precedes the
extension-trace commitment in the transcript — the claimed order
(`ExtensionCommitted` before `ChallengesDrawn`) does not hold. -/
theorem c2_counterexample :
    challengesBeforeExtension
        (((Mini.generateProof exMiniP exMiniO).1).map Event.kind) = true ∧
      (Mini.extensionTrace exMiniP exMiniO).isSome = true := by
  decide

/-- Claim C2, witness for `c2_transcript_order` at the concrete instance. -/
theorem c2_witness :
    ((Mini.extensionTrace exMiniP exMiniO).isSome = true ∧
        ((Mini.generateProof exMiniP exMiniO).1).map Event.kind =
          [.kCommitBase, .kSqueezeChallenges, .kCommitExtension,
           .kSqueezeCompCoeffs, .kCommitComposition, .kSqueezeOod,
           .kSendOodTrace, .kSendOodConstraint, .kSqueezeDeep, .kFriCommit,
           .kGrind, .kSqueezeQueries, .kBuildProof]) ∨
      (Mini.extensionTrace exMiniP exMiniO = none ∧
        ((Mini.generateProof exMiniP exMiniO).1).map Event.kind =
          [.kCommitBase, .kSqueezeChallenges, .kSqueezeCompCoeffs,
           .kCommitComposition, .kSqueezeOod, .kSendOodTrace,
           .kSendOodConstraint, .kSqueezeDeep, .kFriCommit, .kGrind,
           .kSqueezeQueries, .kBuildProof]) :=
  c2_transcript_order exMiniP exMiniO (Mini.proofVal exMiniP exMiniO) rfl

/-- Claim C9 (confirmed).  Every row of the matrix returned by
`MemoryTable::derive_matrix` is either the `[cycle, mp, mem_val, 0]` image of
a processor row with nonzero `CURR_INSTR` (hence `DUMMY = 0`) or an inserted
dummy row with `DUMMY = 1`, and consecutive rows are non-decreasing in the
integer representative of the memory-pointer column `MP`. -/
theorem c9_derive_matrix {E : Type} [CommRing E] [DecidableEq E]
    (bigint : E → Nat) (pm : List (BF.PRow E)) (out : List (BF.MRow E))
    (h : BF.derive_matrix bigint pm = some out) :
    (∀ r ∈ out,
        (∃ p ∈ pm, p.currInstr ≠ 0 ∧ r = BF.MRow.mk p.cycle p.mp p.memVal 0) ∨
          r.dummy = 1) ∧
      List.Chain' (fun a b => bigint a.mp ≤ bigint b.mp) out := by
  simp only [BF.derive_matrix] at h
  set filtered := pm.filterMap (fun row =>
      if row.currInstr = 0 then none
      else some (BF.MRow.mk row.cycle row.mp row.memVal 0)) with hfil
  set sorted := filtered.insertionSort (fun a b => bigint a.mp ≤ bigint b.mp)
    with hsort
  by_cases hzero : sorted.length = 0
  · rw [if_pos hzero] at h
    cases h
  · rw [if_neg hzero] at h
    have hout : BF.dummyLoopAux (sorted.length - 1) 0 sorted = out :=
      Option.some.inj h
    subst hout
    have hlen : sorted.length - 1 + 0 < sorted.length := by omega
    constructor
    · intro r hr
      rcases dummyLoopAux_mem (sorted.length - 1) 0 sorted hlen r hr
          with hmem | hd
      · left
        have hmem' : r ∈ filtered := (List.mem_insertionSort _).mp hmem
        rw [hfil] at hmem'
        obtain ⟨p, hp, heq⟩ := List.mem_filterMap.mp hmem'
        by_cases hz : p.currInstr = 0
        · rw [if_pos hz] at heq
          cases heq
        · rw [if_neg hz] at heq
          exact ⟨p, hp, hz, (Option.some.inj heq).symm⟩
      · right
        exact hd
    · refine dummyLoopAux_chain bigint (sorted.length - 1) 0 sorted hlen ?_
      haveI : IsTotal (BF.MRow E) (fun a b => bigint a.mp ≤ bigint b.mp) :=
        ⟨fun a b => Nat.le_total _ _⟩
      haveI : IsTrans (BF.MRow E) (fun a b => bigint a.mp ≤ bigint b.mp) :=
        ⟨fun _ _ _ hab hbc => le_trans hab hbc⟩
      exact List.Pairwise.chain' (List.sorted_insertionSort _ filtered)

/-- Claim C9, witness for `c9_derive_matrix`: a two-row processor matrix,
both rows live, listed in decreasing `MP` order; the derived matrix is the
sorted pair with `DUMMY = 0` and no inserted rows. -/
theorem c9_witness :
    (∀ r ∈ [BF.MRow.mk (1 : Int) 0 7 0, BF.MRow.mk (0 : Int) 1 5 0],
        (∃ p ∈ exProcMatrix, p.currInstr ≠ 0 ∧
            r = BF.MRow.mk p.cycle p.mp p.memVal 0) ∨
          r.dummy = 1) ∧
      List.Chain' (fun a b => Int.natAbs a.mp ≤ Int.natAbs b.mp)
        [BF.MRow.mk (1 : Int) 0 7 0, BF.MRow.mk (0 : Int) 1 5 0] :=
  c9_derive_matrix Int.natAbs exProcMatrix
    [BF.MRow.mk (1 : Int) 0 7 0, BF.MRow.mk (0 : Int) 1 5 0] (by decide)

/-- Claim C10 (confirmed).  For a non-empty memory table, `pad(n)` extends
the matrix to length `max (original length) n`; every appended row has
`DUMMY = 1`, the `MP` and `MEM_VAL` of the row before it and `CYCLE` one
larger; and the logical length `len()` (matrix length minus padded rows) is
unchanged. -/
theorem c10_pad {E : Type} [CommRing E] (t : BF.MemoryTable E) (n : Nat)
    (h : t.matrix ≠ []) :
    ∃ t2 ap, t.pad n = some t2 ∧
      t2.matrix = t.matrix ++ ap ∧
      t2.matrix.length = max t.matrix.length n ∧
      t2.len = t.len ∧
      List.Chain BF.padFollows (t.matrix.getLast h) ap := by
  obtain ⟨t2, ap, hrun, hmat, hlen, hpad, _, hchain⟩ :=
    padLoop_spec (n - t.matrix.length) t h
  refine ⟨t2, ap, hrun, hmat, ?_, ?_, hchain⟩
  · rw [hlen]
    omega
  · simp only [BF.MemoryTable.len, hlen, hpad]
    omega

/-- Claim C10, witness for `c10_pad`: padding a one-row table to length 3. -/
theorem c10_witness :
    ∃ t2 ap, exMemTable.pad 3 = some t2 ∧
      t2.matrix = exMemTable.matrix ++ ap ∧
      t2.matrix.length = max exMemTable.matrix.length 3 ∧
      t2.len = exMemTable.len ∧
      List.Chain BF.padFollows (exMemTable.matrix.getLast (by decide)) ap :=
  c10_pad exMemTable 3 (by decide)

end Ministark
